import Mathlib

/-!
Verification development for the Faster R-CNN repository (Region Proposal
Network subsystem).  The Python sources `model/rpn/rpn.py` and
`faster_rcnn/model.py` are shallowly embedded below: tensors become lists
or index functions over the reals, the stateful module becomes explicit
state passing, and the stochastic external layers (backbone conv heads,
Proposal, AnchorRefine, ProposalRefine) become function parameters since
their bodies live outside the embedded files.
-/

namespace FasterRCNNVerify

/-- A score row of the RPN score head: column 0 is the foreground score,
column 1 the background score (see the comment at rpn.py line 142). -/
abbrev Score : Type := ℝ × ℝ

/-- A regression-coefficient row (4 numbers in the real code). -/
abbrev Coeff : Type := List ℝ

/-- A box, represented as its list of 4 coordinates. -/
abbrev BoxT : Type := List ℝ

/-- Arithmetic mean of a list of reals (the `mean` reduction used by both
`F.cross_entropy` and `F.smooth_l1_loss` in PyTorch). -/
noncomputable def meanR (xs : List ℝ) : ℝ := xs.sum / (xs.length : ℝ)

/-- Two-class cross entropy of one sample, `F.cross_entropy` on a single
row: the target `t` selects the column whose softmax probability is
scored, `t = 0` selects column 0 (`s.1`), otherwise column 1 (`s.2`). -/
noncomputable def crossEntropyCE (s : Score) (t : ℤ) : ℝ :=
  -Real.log (Real.exp (if t = 0 then s.1 else s.2) / (Real.exp s.1 + Real.exp s.2))

/-- Elementwise smooth-L1 (Huber) penalty with beta 1, as in
`F.smooth_l1_loss`: quadratic below 1, linear above. -/
noncomputable def smoothL1 (x y : ℝ) : ℝ :=
  if |x - y| < 1 then 1 / 2 * (x - y) ^ 2 else |x - y| - 1 / 2

/-- `F.smooth_l1_loss` with the default `mean` reduction over two aligned
flat tensors. -/
noncomputable def smoothL1LossMean (pred target : List ℝ) : ℝ :=
  meanR ((pred.zip target).map (fun p => smoothL1 p.1 p.2))

/-- Per-image RPN classification loss, rpn.py lines 136-144: keep the
anchors whose label is `>= 0` (`fg_and_bg` mask), score each kept anchor
against cross-entropy target `1 - label` (the label flip of line 140),
and reduce by the mean. -/
noncomputable def perImageClassLoss (labels : List ℤ) (scores : List Score) : ℝ :=
  let kept := (labels.zip scores).filter (fun p => decide (0 ≤ p.1))
  meanR (kept.map (fun p => crossEntropyCE p.2 (1 - p.1)))

/-- Per-image RPN regression loss, rpn.py lines 146-151: keep only the
anchors whose label is exactly 1 (`fg` mask) in both the predicted and the
target coefficient tensors, then take the mean smooth-L1 over all kept
elements. -/
noncomputable def perImageBboxLoss (labels : List ℤ) (coeffs targets : List Coeff) : ℝ :=
  let pred := ((labels.zip coeffs).filter (fun p => decide (p.1 = 1))).map Prod.snd
  let tgt := ((labels.zip targets).filter (fun p => decide (p.1 = 1))).map Prod.snd
  smoothL1LossMean pred.flatten tgt.flatten

/-- Transpose of dimensions 1,2,3 of a rank-4 tensor:
`x.permute(0,2,3,1)` of rpn.py line 30, on tensors given as index
functions. -/
def permute0231 (x : ℕ → ℕ → ℕ → ℕ → ℝ) : ℕ → ℕ → ℕ → ℕ → ℝ :=
  fun n h w c => x n c h w

/-- Row-major (`contiguous()`) memory layout of a rank-4 tensor with inner
dimensions `H`, `W`, `C`. -/
def rowMajor4 (H W C : ℕ) (y : ℕ → ℕ → ℕ → ℕ → ℝ) : ℕ → ℝ :=
  fun i => y (i / (H * W * C)) (i / (W * C) % H) (i / C % W) (i % C)

/-- `view(x.size(0), -1, lastDim)`: read a flat buffer back as a rank-3
tensor whose middle dimension is `A`. -/
def view3 (lastDim A : ℕ) (flat : ℕ → ℝ) : ℕ → ℕ → ℕ → ℝ :=
  fun n a k => flat ((n * A + a) * lastDim + k)

/-- The customized `Flatten` module of rpn.py lines 20-30:
`x.permute(0,2,3,1).contiguous().view(x.size(0), -1, last_dim)` on an
input of shape `N x C x H x W`.  The inferred `-1` dimension is
`H * W * C / lastDim`. -/
def Flatten.forward (lastDim C H W : ℕ) (x : ℕ → ℕ → ℕ → ℕ → ℝ) : ℕ → ℕ → ℕ → ℝ :=
  view3 lastDim (H * W * C / lastDim) (rowMajor4 H W C (permute0231 x))

/-- `torch.index_select(x, dim=1, index=idx)`: for each batch entry, pick
the rows listed in `idx` (rpn.py lines 131-132). -/
def indexSelect1 {α : Type} (x : List (List α)) (idx : List ℕ) (dflt : α) : List (List α) :=
  x.map (fun row => idx.map (fun i => row.getD i dflt))

/-- The attribute state of the `RPN` module: the only tensor ever stored
on `self` is `self.anchors`, assigned at rpn.py lines 39-43. -/
structure RPNState where
  anchors : List BoxT

/-- The layers `RPN.forward` delegates to whose bodies live outside the
embedded sources: the shared conv stack (`self.conv`), the two prediction
heads (`self.conv_bbox_score`, `self.conv_bbox_coeff`, already flattened
to `N x A x 2` and `N x A x 4`), `self.proposal`, `self.anchor_refine`
and `self.proposal_refine`.  Each is an arbitrary function of the same
shape as in rpn.py. -/
structure RPNExternal (Feat : Type) where
  conv : Feat → Feat
  convBboxScore : Feat → List (List Score)
  convBboxCoeff : Feat → List (List Coeff)
  proposal : List BoxT → List (List Score) → List (List Coeff) →
    List (List ℝ) × List (List BoxT)
  anchorRefine : List BoxT → List (List BoxT) →
    List (List ℤ) × List (List Coeff) × List ℕ
  proposalRefine : List (List BoxT) → List (List BoxT) → List (List ℤ) →
    List (List BoxT) × List (List ℤ) × List (List Coeff)

/-- The accumulated classification loss of the training loop at rpn.py
lines 135-144: `rpn_class_loss += F.cross_entropy(...)` for `n` in
`range(labels.size(0))`. -/
noncomputable def rpnClassLossSum (labels : List (List ℤ)) (scores : List (List Score)) : ℝ :=
  ((List.range labels.length).map
    (fun n => perImageClassLoss (labels.getD n []) (scores.getD n []))).sum

/-- The accumulated regression loss of the training loop at rpn.py lines
135-151: `rpn_bbox_loss += F.smooth_l1_loss(...)` for `n` in
`range(labels.size(0))`. -/
noncomputable def rpnBboxLossSum (labels : List (List ℤ)) (coeffs targets : List (List Coeff)) : ℝ :=
  ((List.range labels.length).map
    (fun n => perImageBboxLoss (labels.getD n []) (coeffs.getD n []) (targets.getD n []))).sum

/-- Shallow embedding of `RPN.forward`, rpn.py lines 95-166.  The module
state is threaded explicitly; the body assigns no attribute, so the state
is returned unchanged.  `training` is the `self.training` flag.  The
return value mirrors line 166:
`(rois, rois_labels, rois_coeffs, rpn_class_loss, rpn_bbox_loss, rpn_loss)`. -/
noncomputable def RPN.forward {Feat : Type} (ext : RPNExternal Feat) (st : RPNState)
    (training : Bool) (feature_map : Feat)
    (gt_boxes : List (List BoxT)) (gt_classes : List (List ℤ)) :
    (List (List BoxT) × Option (List (List ℤ)) × Option (List (List Coeff)) × ℝ × ℝ × ℝ) ×
      RPNState :=
  let out := ext.conv feature_map
  let bbox_score := ext.convBboxScore out
  let bbox_coeff := ext.convBboxCoeff out
  let rois := (ext.proposal st.anchors bbox_score bbox_coeff).2
  let losses : ℝ × ℝ × ℝ :=
    if training then
      let ar := ext.anchorRefine st.anchors gt_boxes
      let labels := ar.1
      let target_coeffs := ar.2.1
      let anchors_idx := ar.2.2
      let bbox_score_anchors := indexSelect1 bbox_score anchors_idx (0, 0)
      let bbox_coeff_anchors := indexSelect1 bbox_coeff anchors_idx []
      let rpn_class_loss := rpnClassLossSum labels bbox_score_anchors / (gt_boxes.length : ℝ)
      let rpn_bbox_loss :=
        rpnBboxLossSum labels bbox_coeff_anchors target_coeffs / (gt_boxes.length : ℝ)
      (rpn_class_loss, rpn_bbox_loss, rpn_class_loss + rpn_bbox_loss)
    else (0, 0, 0)
  let post :=
    if training then
      let pr := ext.proposalRefine rois gt_boxes gt_classes
      (pr.1, some pr.2.1, some pr.2.2)
    else (rois, none, none)
  ((post.1, post.2.1, post.2.2, losses.1, losses.2.1, losses.2.2), st)

/-- A Python value appearing in the tuple returned by `RPN.forward`. -/
inductive PyVal where
  | boxes : List (List BoxT) → PyVal
  | optLabels : Option (List (List ℤ)) → PyVal
  | optCoeffs : Option (List (List Coeff)) → PyVal
  | scalar : ℝ → PyVal

/-- The return statement of rpn.py line 166, seen as the Python tuple the
caller receives (one `PyVal` per returned expression). -/
noncomputable def rpnReturnTuple
    (r : List (List BoxT) × Option (List (List ℤ)) × Option (List (List Coeff)) × ℝ × ℝ × ℝ) :
    List PyVal :=
  [PyVal.boxes r.1, PyVal.optLabels r.2.1, PyVal.optCoeffs r.2.2.1,
   PyVal.scalar r.2.2.2.1, PyVal.scalar r.2.2.2.2.1, PyVal.scalar r.2.2.2.2.2]

/-- Python tuple unpacking into exactly four names: succeeds only when the
unpacked tuple has exactly four components, otherwise raises
(`ValueError`), modelled as `none`. -/
def unpack4 {α : Type} : List α → Option (α × α × α × α)
  | [a, b, c, d] => some (a, b, c, d)
  | _ => none

/-- The statement
`rois, gt_rois_labels, gt_rois_coeffs, rpn_loss = self.rpn(feature_map, gt_boxes, gt_classes)`
at model.py line 40: the four-name binding applied to the tuple produced
by `RPN.forward`. -/
noncomputable def fasterRcnnRpnBind {Feat : Type} (ext : RPNExternal Feat) (st : RPNState)
    (training : Bool) (feature_map : Feat)
    (gt_boxes : List (List BoxT)) (gt_classes : List (List ℤ)) :
    Option (PyVal × PyVal × PyVal × PyVal) :=
  unpack4 (rpnReturnTuple ((RPN.forward ext st training feature_map gt_boxes gt_classes).1))

/-- The downstream bounding-box regression loss of model.py line 63:
`F.smooth_l1_loss(pred_rois_coeffs, gt_rois_coeffs)` over the whole
`N x R x (numClasses+1)*4` tensor, with no mask: the elementwise mean
smooth-L1 over every entry of the flattened tensors. -/
noncomputable def rcnnBboxLoss (pred target : List (List (List ℝ))) : ℝ :=
  smoothL1LossMean pred.flatten.flatten target.flatten.flatten

/-- The configuration parameters the RPN constructor consumes (spec §6);
thresholds and scale/ratio values are rationals so validity is decidable. -/
structure Config where
  imgSize : ℕ
  stride : ℕ
  scales : List ℚ
  aspects : List ℚ
  posThreshold : ℚ
  negThreshold : ℚ
  roiFgThreshold : ℚ
  roiBgThreshold : ℚ
  nmsThreshold : ℚ

/-- A valid configuration per spec §7: nonempty scale/ratio lists of
positive values, strictly positive thresholds, and each background
threshold strictly below its foreground threshold. -/
def validConfig (c : Config) : Prop :=
  c.scales ≠ [] ∧ (∀ s ∈ c.scales, 0 < s) ∧
  c.aspects ≠ [] ∧ (∀ r ∈ c.aspects, 0 < r) ∧
  (0 < c.posThreshold ∧ 0 < c.negThreshold ∧ 0 < c.roiFgThreshold ∧
    0 < c.roiBgThreshold ∧ 0 < c.nmsThreshold) ∧
  c.negThreshold < c.posThreshold ∧ c.roiBgThreshold < c.roiFgThreshold

/-- A construction-time configuration error (spec §7 taxonomy). -/
inductive ConfigError where
  | invalidScales
  | invalidAspects
  | nonPositiveThreshold
  | backgroundGeForeground

/-- Modelled from the spec: `AnchorGeneration.generate_all` (the module
`rpn/anchor_generation.py` is not among the embedded sources).  Per spec
§4.1 it tiles one box per (grid row, grid column, anchor type), ordered
rows outermost, then columns, then ratio-major anchor type, centered at
the projected cell center `((col+0.5)*S, (row+0.5)*S)`; base dimensions
derive from the scale and ratio (here `scale*sqrt(ratio)` by
`scale/sqrt(ratio)`, one documented choice of the underspecified
combination). -/
noncomputable def anchorGen (c : Config) : List BoxT :=
  let g := c.imgSize / c.stride
  (List.range g).flatMap (fun row =>
    (List.range g).flatMap (fun col =>
      c.aspects.flatMap (fun r =>
        c.scales.map (fun s =>
          [((col : ℝ) + 1 / 2) * (c.stride : ℝ), ((row : ℝ) + 1 / 2) * (c.stride : ℝ),
           (s : ℝ) * Real.sqrt (r : ℝ), (s : ℝ) / Real.sqrt (r : ℝ)]))))

/-- Modelled from the spec: the constructor `RPN.__init__` (rpn.py lines
35-93) together with the construction-time validation the spec (§7)
places in the constructors of the sub-modules that are not among the
embedded sources (`AnchorGeneration`, `Proposal`, `AnchorRefine`,
`ProposalRefine`).  Invalid configurations are rejected with a
`ConfigError`; on success the anchor set is generated once and stored as
the module state. -/
noncomputable def rpnInit (c : Config) : Except ConfigError RPNState :=
  if c.scales = [] ∨ ¬ (∀ s ∈ c.scales, 0 < s) then .error .invalidScales
  else if c.aspects = [] ∨ ¬ (∀ r ∈ c.aspects, 0 < r) then .error .invalidAspects
  else if c.posThreshold ≤ 0 ∨ c.negThreshold ≤ 0 ∨ c.roiFgThreshold ≤ 0 ∨
      c.roiBgThreshold ≤ 0 ∨ c.nmsThreshold ≤ 0 then .error .nonPositiveThreshold
  else if c.posThreshold ≤ c.negThreshold ∨ c.roiFgThreshold ≤ c.roiBgThreshold then
    .error .backgroundGeForeground
  else .ok ⟨anchorGen c⟩

/-- Run a sequence of forward passes (each call carries its training flag,
feature map, ground-truth boxes and classes), threading the module state. -/
noncomputable def runForwards {Feat : Type} (ext : RPNExternal Feat) (st : RPNState)
    (calls : List (Bool × Feat × List (List BoxT) × List (List ℤ))) : RPNState :=
  calls.foldl (fun s c => (RPN.forward ext s c.1 c.2.1 c.2.2.1 c.2.2.2).2) st

/-- A box in center form, the representation the regression transform
works on. -/
@[ext]
structure BoxC where
  cx : ℝ
  cy : ℝ
  w : ℝ
  h : ℝ

/-- Modelled from the spec: the box `encode` transform of the Geometric
Transform Utilities (`rpn/utils.py` is not among the embedded sources).
Per spec §3, the coefficients are a relative offset for the center and a
log-space ratio for width and height. -/
noncomputable def encode (A B : BoxC) : ℝ × ℝ × ℝ × ℝ :=
  ((B.cx - A.cx) / A.w, (B.cy - A.cy) / A.h,
   Real.log (B.w / A.w), Real.log (B.h / A.h))

/-- Modelled from the spec: the box `decode` transform, inverse direction
of `encode`: shift the center by the scaled offsets and scale the
dimensions by the exponentiated log-ratios. -/
noncomputable def decode (A : BoxC) (c : ℝ × ℝ × ℝ × ℝ) : BoxC :=
  ⟨A.cx + c.1 * A.w, A.cy + c.2.1 * A.h,
   A.w * Real.exp c.2.2.1, A.h * Real.exp c.2.2.2⟩

/-- C1: the tuple returned by `RPN.forward` does NOT match what
`FasterRCNN.forward` consumes: the producer returns six values
(rpn.py line 166) while the consumer binds four names (model.py line 40),
so the Python unpacking raises `ValueError` — modelled as `none` — on
every forward pass, training or inference. -/
theorem rpn_faster_rcnn_unpack_mismatch {Feat : Type} (ext : RPNExternal Feat)
    (st : RPNState) (training : Bool) (feature_map : Feat)
    (gt_boxes : List (List BoxT)) (gt_classes : List (List ℤ)) :
    fasterRcnnRpnBind ext st training feature_map gt_boxes gt_classes = none := rfl

/-- C3: in an inference-mode forward pass (`training = false`) the RPN
returns exactly the Proposal layer's boxes, `none` for the RoI labels and
coefficients, and zero for all three loss values; and the result does not
depend on the `AnchorRefine` and `ProposalRefine` layers at all (they are
never invoked). -/
theorem rpn_forward_inference_contract {Feat : Type}
    (conv : Feat → Feat) (cbs : Feat → List (List Score)) (cbc : Feat → List (List Coeff))
    (prop : List BoxT → List (List Score) → List (List Coeff) →
      List (List ℝ) × List (List BoxT))
    (ar1 ar2 : List BoxT → List (List BoxT) → List (List ℤ) × List (List Coeff) × List ℕ)
    (prf1 prf2 : List (List BoxT) → List (List BoxT) → List (List ℤ) →
      List (List BoxT) × List (List ℤ) × List (List Coeff))
    (st : RPNState) (fm : Feat) (gb : List (List BoxT)) (gc : List (List ℤ)) :
    (RPN.forward (RPNExternal.mk conv cbs cbc prop ar1 prf1) st false fm gb gc).1
      = ((prop st.anchors (cbs (conv fm)) (cbc (conv fm))).2, none, none, 0, 0, 0)
    ∧ RPN.forward (RPNExternal.mk conv cbs cbc prop ar1 prf1) st false fm gb gc
      = RPN.forward (RPNExternal.mk conv cbs cbc prop ar2 prf2) st false fm gb gc := by
  constructor <;> rfl

/-- C5: the cross-entropy target of a sampled anchor is `1 - label`
(rpn.py line 140), so under the column-0-is-foreground convention of the
score head a foreground anchor (label 1) is scored against score column 0
and a background anchor (label 0) against score column 1: on a
single-anchor image the per-image classification loss is the negative log
softmax probability of exactly that column. -/
theorem rpn_class_loss_column_convention (s : Score) :
    perImageClassLoss [1] [s]
      = -Real.log (Real.exp s.1 / (Real.exp s.1 + Real.exp s.2))
    ∧ perImageClassLoss [0] [s]
      = -Real.log (Real.exp s.2 / (Real.exp s.1 + Real.exp s.2)) := by
  constructor <;> simp [perImageClassLoss, meanR, crossEntropyCE]

/-- C8: round trip of the box transform: for boxes with positive widths
and heights, decoding the coefficients that encode `B` against `A`
recovers `B` exactly (the real-number idealization of the floating-point
tolerance). -/
theorem bbox_transform_round_trip (A B : BoxC)
    (hAw : 0 < A.w) (hAh : 0 < A.h) (hBw : 0 < B.w) (hBh : 0 < B.h) :
    decode A (encode A B) = B := by
  ext
  · show A.cx + (B.cx - A.cx) / A.w * A.w = B.cx
    field_simp
  · show A.cy + (B.cy - A.cy) / A.h * A.h = B.cy
    field_simp
  · show A.w * Real.exp (Real.log (B.w / A.w)) = B.w
    rw [Real.exp_log (div_pos hBw hAw)]
    field_simp
  · show A.h * Real.exp (Real.log (B.h / A.h)) = B.h
    rw [Real.exp_log (div_pos hBh hAh)]
    field_simp

/-- Witness for C8: the round trip at the concrete anchor
`(0,0,1,2)` and target `(3,5,4,6)`. -/
theorem bbox_transform_round_trip_witness :
    (0 : ℝ) < (1 : ℝ) ∧ (0 : ℝ) < (2 : ℝ) ∧ (0 : ℝ) < (4 : ℝ) ∧ (0 : ℝ) < (6 : ℝ) ∧
    decode ⟨0, 0, 1, 2⟩ (encode ⟨0, 0, 1, 2⟩ ⟨3, 5, 4, 6⟩) = ⟨3, 5, 4, 6⟩ :=
  ⟨by norm_num, by norm_num, by norm_num, by norm_num,
   bbox_transform_round_trip ⟨0, 0, 1, 2⟩ ⟨3, 5, 4, 6⟩
     (by norm_num) (by norm_num) (by norm_num) (by norm_num)⟩

/-- In the quadratic regime of the Huber penalty the smooth-L1 value is
half the squared difference. -/
lemma smoothL1_quad (x y : ℝ) (h : |x - y| < 1) : smoothL1 x y = 1 / 2 * (x - y) ^ 2 :=
  if_pos h

lemma smoothL1_half_zero : smoothL1 (1 / 2) 0 = 1 / 8 := by
  rw [smoothL1_quad]
  · norm_num
  · rw [sub_zero, abs_of_nonneg] <;> norm_num

lemma smoothL1_zero_zero : smoothL1 0 0 = 0 := by
  rw [smoothL1_quad] <;> simp

lemma smoothL1_half_one : smoothL1 (1 / 2) 1 = 1 / 8 := by
  rw [smoothL1_quad]
  · norm_num
  · rw [abs_of_nonpos] <;> norm_num

/-- C2: the downstream bounding-box regression loss is NOT masked to the
assigned class's coefficient slice.  Concrete failing input: one image,
one RoI, two class slices of width 4 laid out as an 8-wide row; the
assigned class is the second slice (real target `[1,1,1,1]`), the first
slice's target is zero.  Putting the prediction `1/2` in the zero-target
first slice changes the loss from `1/16` to `5/64`, so entries outside
the assigned class's slice do contribute to the smooth-L1 loss. -/
theorem rcnn_bbox_loss_scores_zero_target_slices :
    rcnnBboxLoss [[[1 / 2, 0, 0, 0, 1 / 2, 1 / 2, 1 / 2, 1 / 2]]] [[[0, 0, 0, 0, 1, 1, 1, 1]]]
      = 5 / 64
    ∧ rcnnBboxLoss [[[0, 0, 0, 0, 1 / 2, 1 / 2, 1 / 2, 1 / 2]]] [[[0, 0, 0, 0, 1, 1, 1, 1]]]
      = 1 / 16
    ∧ (5 / 64 : ℝ) ≠ 1 / 16 := by
  refine ⟨?_, ?_, by norm_num⟩ <;>
  · simp only [rcnnBboxLoss, smoothL1LossMean, meanR, List.flatten_cons, List.flatten_nil,
      List.append_nil, List.nil_append, List.zip_cons_cons, List.zip_nil_right, List.map_cons,
      List.map_nil, List.sum_cons, List.sum_nil, List.length_cons, List.length_nil,
      smoothL1_half_zero, smoothL1_zero_zero, smoothL1_half_one]
    norm_num

/-- C9: constructing the RPN rejects exactly the invalid configurations:
`rpnInit` returns a configuration error precisely when the configuration
violates validity (invalid scale/ratio lists, a non-positive threshold,
or a background threshold at or above its foreground threshold), so no
module state — and hence no forward pass — is ever obtained from an
invalid configuration. -/
theorem rpn_init_rejects_invalid_config (c : Config) :
    (∃ e, rpnInit c = Except.error e) ↔ ¬ validConfig c := by
  unfold rpnInit
  split_ifs with h1 h2 h3 h4
  · refine ⟨fun _ hv => ?_, fun _ => ⟨_, rfl⟩⟩
    obtain ⟨v1, v2, _⟩ := hv
    rcases h1 with h | h
    · exact v1 h
    · exact h v2
  · refine ⟨fun _ hv => ?_, fun _ => ⟨_, rfl⟩⟩
    obtain ⟨_, _, v3, v4, _⟩ := hv
    rcases h2 with h | h
    · exact v3 h
    · exact h v4
  · refine ⟨fun _ hv => ?_, fun _ => ⟨_, rfl⟩⟩
    obtain ⟨_, _, _, _, v5, _⟩ := hv
    obtain ⟨p1, p2, p3, p4, p5⟩ := v5
    rcases h3 with h | h | h | h | h
    · exact absurd p1 (not_lt.mpr h)
    · exact absurd p2 (not_lt.mpr h)
    · exact absurd p3 (not_lt.mpr h)
    · exact absurd p4 (not_lt.mpr h)
    · exact absurd p5 (not_lt.mpr h)
  · refine ⟨fun _ hv => ?_, fun _ => ⟨_, rfl⟩⟩
    obtain ⟨_, _, _, _, _, v6, v7⟩ := hv
    rcases h4 with h | h
    · exact absurd v6 (not_lt.mpr h)
    · exact absurd v7 (not_lt.mpr h)
  · constructor
    · rintro ⟨e, he⟩
      exact absurd he (by simp)
    · intro hnv
      exfalso
      apply hnv
      push_neg at h1 h2 h3 h4
      exact ⟨h1.1, h1.2, h2.1, h2.2,
        ⟨h3.1, h3.2.1, h3.2.2.1, h3.2.2.2.1, h3.2.2.2.2⟩, h4.1, h4.2⟩

/-- Concrete valid configuration used by witnesses. -/
def cfgW : Config :=
  ⟨600, 16, [8], [1], 7 / 10, 3 / 10, 1 / 2, 1 / 10, 7 / 10⟩

/-- C10: the anchor set is generated once at construction and never
mutated afterwards: a state obtained from `rpnInit` carries the generated
anchors, and any sequence of forward passes (training or inference)
returns the module state — and in particular `anchors` — unchanged. -/
theorem rpn_anchors_immutable {Feat : Type} (cfg : Config) (st : RPNState)
    (ext : RPNExternal Feat)
    (calls : List (Bool × Feat × List (List BoxT) × List (List ℤ)))
    (hinit : rpnInit cfg = Except.ok st) :
    (runForwards ext st calls).anchors = st.anchors ∧ st.anchors = anchorGen cfg := by
  constructor
  · have hrun : ∀ s : RPNState, runForwards ext s calls = s := by
      induction calls with
      | nil => intro s; rfl
      | cons c cs ih =>
        intro s
        show List.foldl _ _ _ = _
        rw [List.foldl_cons]
        exact ih s
    rw [hrun]
  · unfold rpnInit at hinit
    split_ifs at hinit
    simp only [Except.ok.injEq] at hinit
    rw [← hinit]

/-- Concrete external layers over a trivial feature type, used by
witnesses: one image, one anchor kept, label 1 (foreground). -/
noncomputable def extW : RPNExternal Unit :=
  ⟨id, fun _ => [[(0, 0)]], fun _ => [[[0, 0, 0, 0]]],
   fun _ _ _ => ([], [[[0, 0, 0, 0]]]),
   fun _ _ => ([[1]], [[[0, 0, 0, 0]]], [0]),
   fun r _ _ => (r, [[0]], [[[0, 0, 0, 0]]])⟩

/-- Witness for C10: the concrete valid configuration `cfgW` constructs
successfully, and one concrete training forward pass leaves the anchors
at their construction-time value. -/
theorem rpn_anchors_immutable_witness :
    rpnInit cfgW = Except.ok (RPNState.mk (anchorGen cfgW)) ∧
    (runForwards extW (RPNState.mk (anchorGen cfgW))
        [(true, (), [[[0, 0, 50, 50]]], [[0]])]).anchors
      = (RPNState.mk (anchorGen cfgW)).anchors ∧
    (RPNState.mk (anchorGen cfgW)).anchors = anchorGen cfgW := by
  have hinit : rpnInit cfgW = Except.ok (RPNState.mk (anchorGen cfgW)) := by
    unfold rpnInit
    rw [if_neg (by norm_num [cfgW]), if_neg (by norm_num [cfgW]),
      if_neg (by norm_num [cfgW]), if_neg (by norm_num [cfgW])]
  have h := rpn_anchors_immutable cfgW (RPNState.mk (anchorGen cfgW)) extW
    [(true, (), [[[0, 0, 50, 50]]], [[0]])] hinit
  exact ⟨hinit, h.1, h.2⟩

/-- Masking a zipped list by a predicate on the labels only looks at the
positions whose label satisfies the predicate: two companion lists that
agree there are filtered to the same kept list. -/
lemma zip_filter_congr {α : Type} (q : ℤ → Bool) :
    ∀ (labels : List ℤ) (s1 s2 : List α),
      (∀ (i : ℕ) l, labels[i]? = some l → q l = true → s1[i]? = s2[i]?) →
      (labels.zip s1).filter (fun p => q p.1) = (labels.zip s2).filter (fun p => q p.1) := by
  intro labels
  induction labels with
  | nil => intro s1 s2 _; simp
  | cons l ls ih =>
    intro s1 s2 h
    have haux : ∀ (u v : List α),
        (∀ (i : ℕ) l2, ls[i]? = some l2 → q l2 = true → u[i]? = v[i]?) →
        (ls.zip u).filter (fun p => q p.1) = (ls.zip v).filter (fun p => q p.1) := ih
    cases s1 with
    | nil =>
      cases s2 with
      | nil => rfl
      | cons b bs =>
        by_cases hq : q l = true
        · have h0 := h 0 l (by simp) hq
          simp at h0
        · simp only [List.zip_nil_right, List.zip_cons_cons, List.filter_nil, List.filter_cons]
          rw [if_neg (by simpa using hq)]
          have := haux [] bs (fun i l2 hget hql => by
            simpa using h (i + 1) l2 (by simpa using hget) hql)
          simpa using this
    | cons a as =>
      cases s2 with
      | nil =>
        by_cases hq : q l = true
        · have h0 := h 0 l (by simp) hq
          simp at h0
        · simp only [List.zip_nil_right, List.zip_cons_cons, List.filter_nil, List.filter_cons]
          rw [if_neg (by simpa using hq)]
          have := haux as [] (fun i l2 hget hql => by
            simpa using h (i + 1) l2 (by simpa using hget) hql)
          simpa using this
      | cons b bs =>
        have htl := haux as bs (fun i l2 hget hql => by
          simpa using h (i + 1) l2 (by simpa using hget) hql)
        by_cases hq : q l = true
        · have h0 := h 0 l (by simp) hq
          simp only [List.getElem?_cons_zero, Option.some.injEq] at h0
          subst h0
          simp only [List.zip_cons_cons, List.filter_cons]
          rw [if_pos (by simpa using hq), if_pos (by simpa using hq), htl]
        · simp only [List.zip_cons_cons, List.filter_cons]
          rw [if_neg (by simpa using hq), if_neg (by simpa using hq)]
          exact htl

/-- C4: anchors labeled -1 (ignore) contribute to neither loss term of a
training pass: the per-image classification loss only depends on the
score rows of anchors with label `>= 0`, and the per-image regression
loss only depends on the coefficient and target rows of anchors with
label 1 — changing any other row leaves both losses unchanged. -/
theorem rpn_ignore_anchors_no_loss_contribution (labels : List ℤ)
    (s1 s2 : List Score) (c1 c2 t1 t2 : List Coeff)
    (hs : ∀ (i : ℕ) l, labels[i]? = some l → 0 ≤ l → s1[i]? = s2[i]?)
    (hc : ∀ (i : ℕ) l, labels[i]? = some l → l = 1 → c1[i]? = c2[i]?)
    (ht : ∀ (i : ℕ) l, labels[i]? = some l → l = 1 → t1[i]? = t2[i]?) :
    perImageClassLoss labels s1 = perImageClassLoss labels s2 ∧
    perImageBboxLoss labels c1 t1 = perImageBboxLoss labels c2 t2 := by
  constructor
  · unfold perImageClassLoss
    have hk : (labels.zip s1).filter (fun p => decide (0 ≤ p.1))
        = (labels.zip s2).filter (fun p => decide (0 ≤ p.1)) :=
      zip_filter_congr (fun l => decide (0 ≤ l)) labels s1 s2
        (fun i l hget hql => hs i l hget (by simpa using hql))
    rw [hk]
  · unfold perImageBboxLoss
    have hkc : (labels.zip c1).filter (fun p => decide (p.1 = 1))
        = (labels.zip c2).filter (fun p => decide (p.1 = 1)) :=
      zip_filter_congr (fun l => decide (l = 1)) labels c1 c2
        (fun i l hget hql => hc i l hget (by simpa using hql))
    have hkt : (labels.zip t1).filter (fun p => decide (p.1 = 1))
        = (labels.zip t2).filter (fun p => decide (p.1 = 1)) :=
      zip_filter_congr (fun l => decide (l = 1)) labels t1 t2
        (fun i l hget hql => ht i l hget (by simpa using hql))
    rw [hkc, hkt]

/-- Witness for C4: three anchors labeled ignore/foreground/background;
the score row of the ignored anchor, the coefficient rows of the
non-foreground anchors and the target rows of the non-foreground anchors
all differ between the two sides, yet both losses agree. -/
theorem rpn_ignore_anchors_no_loss_contribution_witness :
    (∀ (i : ℕ) l, ([-1, 1, 0] : List ℤ)[i]? = some l → 0 ≤ l →
      ([((5 : ℝ), (5 : ℝ)), (1, 2), (3, 4)])[i]? = ([((0 : ℝ), (0 : ℝ)), (1, 2), (3, 4)])[i]?) ∧
    (∀ (i : ℕ) l, ([-1, 1, 0] : List ℤ)[i]? = some l → l = 1 →
      ([[(9 : ℝ)], [1, 2, 3, 4], [7]])[i]? = ([[(0 : ℝ)], [1, 2, 3, 4], [8]])[i]?) ∧
    (∀ (i : ℕ) l, ([-1, 1, 0] : List ℤ)[i]? = some l → l = 1 →
      ([[(5 : ℝ)], [0, 0, 0, 0], [6]])[i]? = ([[(0 : ℝ)], [0, 0, 0, 0], [0]])[i]?) ∧
    (perImageClassLoss [-1, 1, 0] [(5, 5), (1, 2), (3, 4)]
        = perImageClassLoss [-1, 1, 0] [(0, 0), (1, 2), (3, 4)] ∧
      perImageBboxLoss [-1, 1, 0] [[9], [1, 2, 3, 4], [7]] [[5], [0, 0, 0, 0], [6]]
        = perImageBboxLoss [-1, 1, 0] [[0], [1, 2, 3, 4], [8]] [[0], [0, 0, 0, 0], [0]]) := by
  have hs : ∀ (i : ℕ) l, ([-1, 1, 0] : List ℤ)[i]? = some l → 0 ≤ l →
      ([((5 : ℝ), (5 : ℝ)), (1, 2), (3, 4)])[i]?
        = ([((0 : ℝ), (0 : ℝ)), (1, 2), (3, 4)])[i]? := by
    intro i l hget hle
    rcases i with _ | _ | _ | i
    · simp at hget
      exact absurd hle (by omega)
    · rfl
    · rfl
    · simp at hget
  have hc : ∀ (i : ℕ) l, ([-1, 1, 0] : List ℤ)[i]? = some l → l = 1 →
      ([[(9 : ℝ)], [1, 2, 3, 4], [7]])[i]? = ([[(0 : ℝ)], [1, 2, 3, 4], [8]])[i]? := by
    intro i l hget heq
    rcases i with _ | _ | _ | i
    · simp at hget
      omega
    · rfl
    · simp at hget
      omega
    · simp at hget
  have ht : ∀ (i : ℕ) l, ([-1, 1, 0] : List ℤ)[i]? = some l → l = 1 →
      ([[(5 : ℝ)], [0, 0, 0, 0], [6]])[i]? = ([[(0 : ℝ)], [0, 0, 0, 0], [0]])[i]? := by
    intro i l hget heq
    rcases i with _ | _ | _ | i
    · simp at hget
      omega
    · rfl
    · simp at hget
      omega
    · simp at hget
  exact ⟨hs, hc, ht,
    rpn_ignore_anchors_no_loss_contribution [-1, 1, 0] _ _ _ _ _ _ hs hc ht⟩

/-- Decomposition of a row-major flat index: reading back the four
coordinates of `((n*H + h)*W + w)*C + c` by division and remainder
recovers `n`, `h`, `w`, `c`. -/
lemma unflatten_index (H W C n h w c : ℕ) (hh : h < H) (hw : w < W) (hc : c < C) :
    (((n * H + h) * W + w) * C + c) / (H * W * C) = n ∧
    ((((n * H + h) * W + w) * C + c) / (W * C)) % H = h ∧
    ((((n * H + h) * W + w) * C + c) / C) % W = w ∧
    (((n * H + h) * W + w) * C + c) % C = c := by
  have hC : 0 < C := Nat.lt_of_le_of_lt (Nat.zero_le c) hc
  have hW : 0 < W := Nat.lt_of_le_of_lt (Nat.zero_le w) hw
  have hWC : 0 < W * C := Nat.mul_pos hW hC
  have hHWC : 0 < H * (W * C) := Nat.mul_pos (Nat.lt_of_le_of_lt (Nat.zero_le h) hh) hWC
  have hwc : w * C + c < W * C := by
    calc w * C + c < w * C + C := by omega
    _ = (w + 1) * C := by ring
    _ ≤ W * C := Nat.mul_le_mul_right C hw
  have hhwc : h * (W * C) + (w * C + c) < H * (W * C) := by
    calc h * (W * C) + (w * C + c) < h * (W * C) + W * C := by omega
    _ = (h + 1) * (W * C) := by ring
    _ ≤ H * (W * C) := Nat.mul_le_mul_right (W * C) hh
  refine ⟨?_, ?_, ?_, ?_⟩
  · have hi : ((n * H + h) * W + w) * C + c
        = (h * (W * C) + (w * C + c)) + (H * (W * C)) * n := by ring
    rw [show H * W * C = H * (W * C) by ring, hi,
      Nat.add_mul_div_left _ _ hHWC, Nat.div_eq_of_lt hhwc, Nat.zero_add]
  · have hi : ((n * H + h) * W + w) * C + c = (w * C + c) + (W * C) * (n * H + h) := by ring
    rw [hi, Nat.add_mul_div_left _ _ hWC, Nat.div_eq_of_lt hwc, Nat.zero_add,
      show n * H + h = h + H * n by ring, Nat.add_mul_mod_self_left, Nat.mod_eq_of_lt hh]
  · have hi : ((n * H + h) * W + w) * C + c = c + C * ((n * H + h) * W + w) := by ring
    rw [hi, Nat.add_mul_div_left _ _ hC, Nat.div_eq_of_lt hc, Nat.zero_add,
      show (n * H + h) * W + w = w + W * (n * H + h) by ring,
      Nat.add_mul_mod_self_left, Nat.mod_eq_of_lt hw]
  · have hi : ((n * H + h) * W + w) * C + c = c + C * ((n * H + h) * W + w) := by ring
    rw [hi, Nat.add_mul_mod_self_left, Nat.mod_eq_of_lt hc]

/-- C6: `Flatten(d).forward` reshapes the head output in the flattening
order of the anchor grid, rows outermost, then columns, then anchor type:
on an input of shape `N x (T*d) x H x W`, the output entry at
`(n, (h*W + w)*T + t, k)` is the input entry at `(n, t*d + k, h, w)`, and
the inferred middle dimension is `H*W*T` (so the score head yields
`N x A x 2` and the coefficient head `N x A x 4` with `A = H*W*T`). -/
theorem flatten_forward_anchor_order (T d H W : ℕ) (x : ℕ → ℕ → ℕ → ℕ → ℝ) (n h w t k : ℕ)
    (hd : 0 < d) (hh : h < H) (hw : w < W) (ht : t < T) (hk : k < d) :
    Flatten.forward d (T * d) H W x n ((h * W + w) * T + t) k = x n (t * d + k) h w ∧
    H * W * (T * d) / d = H * W * T := by
  have hA : H * W * (T * d) / d = H * W * T := by
    rw [show H * W * (T * d) = H * W * T * d by ring, Nat.mul_div_cancel _ hd]
  refine ⟨?_, hA⟩
  show rowMajor4 H W (T * d) (permute0231 x)
    ((n * (H * W * (T * d) / d) + ((h * W + w) * T + t)) * d + k) = _
  rw [hA]
  have hc : t * d + k < T * d := by
    calc t * d + k < t * d + d := by omega
    _ = (t + 1) * d := by ring
    _ ≤ T * d := Nat.mul_le_mul_right d ht
  have hi : (n * (H * W * T) + ((h * W + w) * T + t)) * d + k
      = ((n * H + h) * W + w) * (T * d) + (t * d + k) := by ring
  rw [hi]
  obtain ⟨e1, e2, e3, e4⟩ := unflatten_index H W (T * d) n h w (t * d + k) hh hw hc
  unfold rowMajor4 permute0231
  rw [e1, e2, e3, e4]

/-- Witness for C6: a 2x2 grid with 3 anchor types and a last dimension
of 2 (the score head of a tiny feature map), evaluated at grid cell
(1,0), anchor type 2, component 1. -/
theorem flatten_forward_anchor_order_witness :
    0 < 2 ∧ 1 < 2 ∧ 0 < 2 ∧ 2 < 3 ∧ 1 < 2 ∧
    (Flatten.forward 2 (3 * 2) 2 2
        (fun _ c _ _ => (c : ℝ)) 0 ((1 * 2 + 0) * 3 + 2) 1 = ((2 * 2 + 1 : ℕ) : ℝ) ∧
    2 * 2 * (3 * 2) / 2 = 2 * 2 * 3) := by
  refine ⟨by decide, by decide, by decide, by decide, by decide, ?_⟩
  exact flatten_forward_anchor_order 3 2 2 2
    (fun _ c _ _ => (c : ℝ)) 0 1 0 2 1
    (by decide) (by decide) (by decide) (by decide) (by decide)

/-- Spec-side formulation of the batch classification loss (spec §4.5,
for the refinement claim about batch averaging): `1/N` times the sum over
the `N` images of that image's mean cross-entropy over its sampled
anchors. -/
noncomputable def specBatchClassLoss {Feat : Type} (ext : RPNExternal Feat) (st : RPNState)
    (fm : Feat) (gb : List (List BoxT)) : ℝ :=
  (1 / (gb.length : ℝ)) *
    ((List.range gb.length).map (fun n =>
      perImageClassLoss (((ext.anchorRefine st.anchors gb).1).getD n [])
        ((indexSelect1 (ext.convBboxScore (ext.conv fm))
          ((ext.anchorRefine st.anchors gb).2.2) (0, 0)).getD n []))).sum

/-- Spec-side formulation of the batch regression loss (spec §4.5): `1/N`
times the sum over the `N` images of that image's mean smooth-L1 over its
foreground anchors. -/
noncomputable def specBatchBboxLoss {Feat : Type} (ext : RPNExternal Feat) (st : RPNState)
    (fm : Feat) (gb : List (List BoxT)) : ℝ :=
  (1 / (gb.length : ℝ)) *
    ((List.range gb.length).map (fun n =>
      perImageBboxLoss (((ext.anchorRefine st.anchors gb).1).getD n [])
        ((indexSelect1 (ext.convBboxCoeff (ext.conv fm))
          ((ext.anchorRefine st.anchors gb).2.2) []).getD n [])
        (((ext.anchorRefine st.anchors gb).2.1).getD n []))).sum

/-- C7: the RPN loss of a training forward pass is evaluated per image
then averaged across the batch: with the per-image label tensor aligned
to the `N` ground-truth records, the returned `rpn_class_loss` is `1/N`
times the sum of per-image mean cross-entropies, the returned
`rpn_bbox_loss` is `1/N` times the sum of per-image mean smooth-L1
losses, and the returned `rpn_loss` is their sum. -/
theorem rpn_loss_batch_average {Feat : Type} (ext : RPNExternal Feat) (st : RPNState)
    (fm : Feat) (gb : List (List BoxT)) (gc : List (List ℤ))
    (hN : ((ext.anchorRefine st.anchors gb).1).length = gb.length) :
    ((RPN.forward ext st true fm gb gc).1).2.2.2.1 = specBatchClassLoss ext st fm gb ∧
    ((RPN.forward ext st true fm gb gc).1).2.2.2.2.1 = specBatchBboxLoss ext st fm gb ∧
    ((RPN.forward ext st true fm gb gc).1).2.2.2.2.2
      = ((RPN.forward ext st true fm gb gc).1).2.2.2.1
        + ((RPN.forward ext st true fm gb gc).1).2.2.2.2.1 := by
  refine ⟨?_, ?_, rfl⟩
  · show rpnClassLossSum ((ext.anchorRefine st.anchors gb).1) _ / (gb.length : ℝ) = _
    unfold specBatchClassLoss rpnClassLossSum
    rw [hN, one_div_mul_eq_div]
  · show rpnBboxLossSum ((ext.anchorRefine st.anchors gb).1) _ _ / (gb.length : ℝ) = _
    unfold specBatchBboxLoss rpnBboxLossSum
    rw [hN, one_div_mul_eq_div]

/-- Concrete witness inputs: a one-image batch with one ground-truth box
and class. -/
noncomputable def stW : RPNState := RPNState.mk [[0, 0, 50, 50]]

/-- One-image ground-truth boxes for witnesses. -/
noncomputable def gbW : List (List BoxT) := [[[0, 0, 50, 50]]]

/-- One-image ground-truth classes for witnesses. -/
def gcW : List (List ℤ) := [[0]]

/-- Witness for C7: the batch-averaging identities on the concrete
one-image batch. -/
theorem rpn_loss_batch_average_witness :
    ((extW.anchorRefine stW.anchors gbW).1).length = gbW.length ∧
    (((RPN.forward extW stW true () gbW gcW).1).2.2.2.1 = specBatchClassLoss extW stW () gbW ∧
     ((RPN.forward extW stW true () gbW gcW).1).2.2.2.2.1 = specBatchBboxLoss extW stW () gbW ∧
     ((RPN.forward extW stW true () gbW gcW).1).2.2.2.2.2
       = ((RPN.forward extW stW true () gbW gcW).1).2.2.2.1
         + ((RPN.forward extW stW true () gbW gcW).1).2.2.2.2.1) :=
  ⟨rfl, rpn_loss_batch_average extW stW () gbW gcW rfl⟩

end FasterRCNNVerify
